import Mathlib

/-!
Verification of the near-kit transaction pipeline against its
natural-language specification.

The development shallowly embeds:

* the Borsh binary codec schemas declared in the serialization module
  (`PublicKeySchema`, `SignatureSchema`, `ActionSchema`, `TransactionSchema`,
  `SignedTransactionSchema`, ...), together with encode/decode functions
  following the Borsh encoding rules (little-endian fixed-width integers,
  4-byte length-prefixed strings and vectors, 1-byte option flags, 1-byte
  enum discriminants in declaration order, fixed-size arrays with no prefix);
* the action factory functions (`transfer`, `addKey`, `signedDelegate`, ...)
  and the `actionToZorsh` tag dispatch;
* the RPC retry loop, the outcome classification walk, the RPC action-echo
  decoding quirk, and the stale-nonce error shape — modelled from the spec
  where the implementation file itself is not part of the source tree.

Bytes are modelled as `Nat` lists with explicit range side conditions.
-/

namespace NearKit

/-! ## Borsh primitives

Encoding rules from the codec contract: unsigned integers are little-endian
fixed-width; vectors and strings carry a 4-byte little-endian length prefix;
fixed-size arrays are raw bytes; options are a 1-byte presence flag; enums a
1-byte discriminant followed by the payload. Decoders consume a prefix of the
byte list and return the value together with the unconsumed tail. -/

/-- Little-endian fixed-width encoding of an unsigned integer into `w` bytes. -/
def encUInt : Nat → Nat → List Nat
  | 0, _ => []
  | w + 1, n => n % 256 :: encUInt w (n / 256)

/-- Little-endian fixed-width decoding of `w` bytes into an unsigned integer. -/
def decUInt : Nat → List Nat → Option (Nat × List Nat)
  | 0, bs => some (0, bs)
  | _ + 1, [] => none
  | w + 1, b :: bs => (decUInt w bs).map (fun p => (b + 256 * p.1, p.2))

/-- Fixed-size byte array decode: take exactly `k` bytes off the front. -/
def decFixed (k : Nat) (bs : List Nat) : Option (List Nat × List Nat) :=
  if k ≤ bs.length then some (bs.take k, bs.drop k) else none

/-- Concatenation of per-element encodings. -/
def encList (enc : α → List Nat) : List α → List Nat
  | [] => []
  | x :: xs => enc x ++ encList enc xs

/-- Decode exactly `n` consecutive elements. -/
def decCount (dec : List Nat → Option (α × List Nat)) :
    Nat → List Nat → Option (List α × List Nat)
  | 0, bs => some ([], bs)
  | n + 1, bs =>
    match dec bs with
    | none => none
    | some (x, bs1) =>
      match decCount dec n bs1 with
      | none => none
      | some (xs, bs2) => some (x :: xs, bs2)

/-- Borsh `vec<T>`: 4-byte little-endian length prefix then the elements. -/
def encVec (enc : α → List Nat) (xs : List α) : List Nat :=
  encUInt 4 xs.length ++ encList enc xs

/-- Decode a Borsh `vec<T>`. -/
def decVec (dec : List Nat → Option (α × List Nat)) (bs : List Nat) :
    Option (List α × List Nat) :=
  match decUInt 4 bs with
  | none => none
  | some (n, bs1) => decCount dec n bs1

/-- Borsh string, modelled at the byte level: 4-byte little-endian length
prefix followed by the raw bytes. -/
def encBStr (s : List Nat) : List Nat :=
  encUInt 4 s.length ++ s

/-- Decode a Borsh string as its raw byte list. -/
def decBStr (bs : List Nat) : Option (List Nat × List Nat) :=
  match decUInt 4 bs with
  | none => none
  | some (n, bs1) => decFixed n bs1

/-- Borsh `option<T>`: 1-byte presence flag, then the payload when present. -/
def encOpt (enc : α → List Nat) : Option α → List Nat
  | none => [0]
  | some x => 1 :: enc x

/-- Decode a Borsh `option<T>`. -/
def decOpt (dec : List Nat → Option (α × List Nat)) :
    List Nat → Option (Option α × List Nat)
  | 0 :: rest => some (none, rest)
  | 1 :: rest => (dec rest).map (fun p => (some p.1, p.2))
  | _ => none

/-! ## Data model: the codec schema value types

Each type mirrors one schema declaration of the serialization module; variant
order and struct field order follow the declarations, since both determine
the wire layout. -/

/-- `PublicKeySchema`: enum with `ed25519Key` (32-byte payload, discriminant 0)
and `secp256k1Key` (64-byte payload, discriminant 1). -/
inductive PublicKey where
  | ed25519Key (data : List Nat)
  | secp256k1Key (data : List Nat)
  deriving DecidableEq, Repr

/-- `SignatureSchema`: enum with `ed25519Signature` (64-byte payload,
discriminant 0) and `secp256k1Signature` (65-byte payload, discriminant 1). -/
inductive Signature where
  | ed25519Signature (data : List Nat)
  | secp256k1Signature (data : List Nat)
  deriving DecidableEq, Repr

/-- A valid public key: payload length fixed per variant, payload made of bytes. -/
def wfPublicKey : PublicKey → Bool
  | .ed25519Key d => d.length == 32 && d.all (· < 256)
  | .secp256k1Key d => d.length == 64 && d.all (· < 256)

/-- A valid signature: payload length fixed per variant, payload made of bytes. -/
def wfSignature : Signature → Bool
  | .ed25519Signature d => d.length == 64 && d.all (· < 256)
  | .secp256k1Signature d => d.length == 65 && d.all (· < 256)

/-- Encode a public key: 1-byte discriminant then the fixed-size payload. -/
def encPublicKey : PublicKey → List Nat
  | .ed25519Key d => 0 :: d
  | .secp256k1Key d => 1 :: d

/-- Decode a public key. -/
def decPublicKey : List Nat → Option (PublicKey × List Nat)
  | 0 :: rest => (decFixed 32 rest).map (fun p => (.ed25519Key p.1, p.2))
  | 1 :: rest => (decFixed 64 rest).map (fun p => (.secp256k1Key p.1, p.2))
  | _ => none

/-- Encode a signature: 1-byte discriminant then the fixed-size payload. -/
def encSignature : Signature → List Nat
  | .ed25519Signature d => 0 :: d
  | .secp256k1Signature d => 1 :: d

/-- Decode a signature. -/
def decSignature : List Nat → Option (Signature × List Nat)
  | 0 :: rest => (decFixed 64 rest).map (fun p => (.ed25519Signature p.1, p.2))
  | 1 :: rest => (decFixed 65 rest).map (fun p => (.secp256k1Signature p.1, p.2))
  | _ => none

/-- A valid Borsh string / byte vector value: length fits in the 4-byte
prefix and the contents are bytes. (`b.string()` and `b.vec(b.u8())` share
the same wire layout: 4-byte little-endian length then raw bytes.) -/
def wfBStr (s : List Nat) : Bool :=
  decide (s.length < 256 ^ 4) && s.all (· < 256)

/-- `FunctionCallPermissionSchema`: `allowance` (option u128), `receiverId`
(string), `methodNames` (vec of strings), in that field order. -/
structure FunctionCallPermission where
  allowance : Option Nat
  receiverId : List Nat
  methodNames : List (List Nat)
  deriving DecidableEq, Repr

/-- `AccessKeyPermissionSchema`: enum `functionCall` (discriminant 0),
`fullAccess` (discriminant 1, empty struct). -/
inductive AccessKeyPermission where
  | functionCall (p : FunctionCallPermission)
  | fullAccess
  deriving DecidableEq, Repr

/-- `AccessKeySchema`: `nonce` (u64) then `permission`. -/
structure AccessKey where
  nonce : Nat
  permission : AccessKeyPermission
  deriving DecidableEq, Repr

/-- `GlobalContractDeployModeSchema`: enum of two empty structs,
`CodeHash` (0) and `AccountId` (1). -/
inductive GlobalContractDeployMode where
  | CodeHash
  | AccountId
  deriving DecidableEq, Repr

/-- `GlobalContractIdentifierSchema`: enum `CodeHash` (32-byte array,
discriminant 0) and `AccountId` (string, discriminant 1). -/
inductive GlobalContractIdentifier where
  | CodeHash (hash : List Nat)
  | AccountId (accountId : List Nat)
  deriving DecidableEq, Repr

def wfFunctionCallPermission (p : FunctionCallPermission) : Bool :=
  (match p.allowance with
   | none => true
   | some a => decide (a < 256 ^ 16)) &&
  wfBStr p.receiverId &&
  (decide (p.methodNames.length < 256 ^ 4) && p.methodNames.all wfBStr)

def wfAccessKeyPermission : AccessKeyPermission → Bool
  | .functionCall p => wfFunctionCallPermission p
  | .fullAccess => true

def wfAccessKey (k : AccessKey) : Bool :=
  decide (k.nonce < 256 ^ 8) && wfAccessKeyPermission k.permission

def wfGlobalContractIdentifier : GlobalContractIdentifier → Bool
  | .CodeHash h => h.length == 32 && h.all (· < 256)
  | .AccountId s => wfBStr s

def encFunctionCallPermission (p : FunctionCallPermission) : List Nat :=
  encOpt (encUInt 16) p.allowance ++ encBStr p.receiverId ++
    encVec encBStr p.methodNames

def decFunctionCallPermission (bs : List Nat) :
    Option (FunctionCallPermission × List Nat) :=
  match decOpt (decUInt 16) bs with
  | none => none
  | some (allowance, bs1) =>
    match decBStr bs1 with
    | none => none
    | some (receiverId, bs2) =>
      match decVec decBStr bs2 with
      | none => none
      | some (methodNames, bs3) => some (⟨allowance, receiverId, methodNames⟩, bs3)

def encAccessKeyPermission : AccessKeyPermission → List Nat
  | .functionCall p => 0 :: encFunctionCallPermission p
  | .fullAccess => [1]

def decAccessKeyPermission : List Nat → Option (AccessKeyPermission × List Nat)
  | 0 :: rest => (decFunctionCallPermission rest).map (fun p => (.functionCall p.1, p.2))
  | 1 :: rest => some (.fullAccess, rest)
  | _ => none

def encAccessKey (k : AccessKey) : List Nat :=
  encUInt 8 k.nonce ++ encAccessKeyPermission k.permission

def decAccessKey (bs : List Nat) : Option (AccessKey × List Nat) :=
  match decUInt 8 bs with
  | none => none
  | some (nonce, bs1) =>
    match decAccessKeyPermission bs1 with
    | none => none
    | some (perm, bs2) => some (⟨nonce, perm⟩, bs2)

def encGlobalContractDeployMode : GlobalContractDeployMode → List Nat
  | .CodeHash => [0]
  | .AccountId => [1]

def decGlobalContractDeployMode : List Nat → Option (GlobalContractDeployMode × List Nat)
  | 0 :: rest => some (.CodeHash, rest)
  | 1 :: rest => some (.AccountId, rest)
  | _ => none

def encGlobalContractIdentifier : GlobalContractIdentifier → List Nat
  | .CodeHash h => 0 :: h
  | .AccountId s => 1 :: encBStr s

def decGlobalContractIdentifier : List Nat → Option (GlobalContractIdentifier × List Nat)
  | 0 :: rest => (decFixed 32 rest).map (fun p => (.CodeHash p.1, p.2))
  | 1 :: rest => (decBStr rest).map (fun p => (.AccountId p.1, p.2))
  | _ => none

/-- `ClassicActionsSchema`: same variant list as `ActionSchema` but the
`signedDelegate` slot (discriminant 8) carries a bare string placeholder
instead of a signed-delegate payload. Used inside `DelegateActionSchema`. -/
inductive ClassicAction where
  | createAccount
  | deployContract (code : List Nat)
  | functionCall (methodName : List Nat) (args : List Nat) (gas : Nat) (deposit : Nat)
  | transfer (deposit : Nat)
  | stake (stakeAmount : Nat) (publicKey : PublicKey)
  | addKey (publicKey : PublicKey) (accessKey : AccessKey)
  | deleteKey (publicKey : PublicKey)
  | deleteAccount (beneficiaryId : List Nat)
  | signedDelegate (placeholder : List Nat)
  | deployGlobalContract (code : List Nat) (deployMode : GlobalContractDeployMode)
  | useGlobalContract (contractIdentifier : GlobalContractIdentifier)
  deriving DecidableEq, Repr

/-- `DelegateActionSchema`: field order `senderId`, `receiverId`, `actions`
(vec of `ClassicActionsSchema`), `nonce` (u64), `maxBlockHeight` (u64),
`publicKey`. -/
structure DelegateAction where
  senderId : List Nat
  receiverId : List Nat
  actions : List ClassicAction
  nonce : Nat
  maxBlockHeight : Nat
  publicKey : PublicKey
  deriving DecidableEq, Repr

/-- `SignedDelegateSchema`: `delegateAction` then `signature`. -/
structure SignedDelegate where
  delegateAction : DelegateAction
  signature : Signature
  deriving DecidableEq, Repr

def wfClassicAction : ClassicAction → Bool
  | .createAccount => true
  | .deployContract code => wfBStr code
  | .functionCall m a g d =>
    wfBStr m && wfBStr a && decide (g < 256 ^ 8) && decide (d < 256 ^ 16)
  | .transfer d => decide (d < 256 ^ 16)
  | .stake s pk => decide (s < 256 ^ 16) && wfPublicKey pk
  | .addKey pk ak => wfPublicKey pk && wfAccessKey ak
  | .deleteKey pk => wfPublicKey pk
  | .deleteAccount b => wfBStr b
  | .signedDelegate s => wfBStr s
  | .deployGlobalContract code _ => wfBStr code
  | .useGlobalContract i => wfGlobalContractIdentifier i

def wfDelegateAction (d : DelegateAction) : Bool :=
  wfBStr d.senderId && wfBStr d.receiverId &&
  decide (d.actions.length < 256 ^ 4) && d.actions.all wfClassicAction &&
  decide (d.nonce < 256 ^ 8) && decide (d.maxBlockHeight < 256 ^ 8) &&
  wfPublicKey d.publicKey

def wfSignedDelegate (s : SignedDelegate) : Bool :=
  wfDelegateAction s.delegateAction && wfSignature s.signature

/-- Encode a `ClassicActionsSchema` value: 1-byte discriminant in declaration
order, then the variant's struct encoding. -/
def encClassicAction : ClassicAction → List Nat
  | .createAccount => [0]
  | .deployContract code => 1 :: encBStr code
  | .functionCall m a g d => 2 :: (encBStr m ++ encBStr a ++ encUInt 8 g ++ encUInt 16 d)
  | .transfer d => 3 :: encUInt 16 d
  | .stake s pk => 4 :: (encUInt 16 s ++ encPublicKey pk)
  | .addKey pk ak => 5 :: (encPublicKey pk ++ encAccessKey ak)
  | .deleteKey pk => 6 :: encPublicKey pk
  | .deleteAccount b => 7 :: encBStr b
  | .signedDelegate s => 8 :: encBStr s
  | .deployGlobalContract code m => 9 :: (encBStr code ++ encGlobalContractDeployMode m)
  | .useGlobalContract i => 10 :: encGlobalContractIdentifier i

/-- Decode the `functionCall` payload struct. -/
def decFunctionCallPayload (bs : List Nat) : Option (ClassicAction × List Nat) :=
  match decBStr bs with
  | none => none
  | some (m, bs1) =>
    match decBStr bs1 with
    | none => none
    | some (a, bs2) =>
      match decUInt 8 bs2 with
      | none => none
      | some (g, bs3) =>
        match decUInt 16 bs3 with
        | none => none
        | some (d, bs4) => some (.functionCall m a g d, bs4)

/-- Decode the `stake` payload struct. -/
def decStakePayload (bs : List Nat) : Option (ClassicAction × List Nat) :=
  match decUInt 16 bs with
  | none => none
  | some (s, bs1) =>
    match decPublicKey bs1 with
    | none => none
    | some (pk, bs2) => some (.stake s pk, bs2)

/-- Decode the `addKey` payload struct. -/
def decAddKeyPayload (bs : List Nat) : Option (ClassicAction × List Nat) :=
  match decPublicKey bs with
  | none => none
  | some (pk, bs1) =>
    match decAccessKey bs1 with
    | none => none
    | some (ak, bs2) => some (.addKey pk ak, bs2)

/-- Decode the `deployGlobalContract` payload struct. -/
def decDeployGlobalPayload (bs : List Nat) : Option (ClassicAction × List Nat) :=
  match decBStr bs with
  | none => none
  | some (code, bs1) =>
    match decGlobalContractDeployMode bs1 with
    | none => none
    | some (m, bs2) => some (.deployGlobalContract code m, bs2)

/-- Decode a `ClassicActionsSchema` value: read the 1-byte discriminant and
dispatch to the variant's payload decoder. -/
def decClassicAction : List Nat → Option (ClassicAction × List Nat)
  | [] => none
  | t :: rest =>
    if t = 0 then some (.createAccount, rest)
    else if t = 1 then (decBStr rest).map (fun p => (.deployContract p.1, p.2))
    else if t = 2 then decFunctionCallPayload rest
    else if t = 3 then (decUInt 16 rest).map (fun p => (.transfer p.1, p.2))
    else if t = 4 then decStakePayload rest
    else if t = 5 then decAddKeyPayload rest
    else if t = 6 then (decPublicKey rest).map (fun p => (.deleteKey p.1, p.2))
    else if t = 7 then (decBStr rest).map (fun p => (.deleteAccount p.1, p.2))
    else if t = 8 then (decBStr rest).map (fun p => (.signedDelegate p.1, p.2))
    else if t = 9 then decDeployGlobalPayload rest
    else if t = 10 then
      (decGlobalContractIdentifier rest).map (fun p => (.useGlobalContract p.1, p.2))
    else none

/-- Encode a `DelegateActionSchema` value. -/
def encDelegateAction (d : DelegateAction) : List Nat :=
  encBStr d.senderId ++ encBStr d.receiverId ++ encVec encClassicAction d.actions ++
    encUInt 8 d.nonce ++ encUInt 8 d.maxBlockHeight ++ encPublicKey d.publicKey

/-- Decode a `DelegateActionSchema` value. -/
def decDelegateAction (bs : List Nat) : Option (DelegateAction × List Nat) :=
  match decBStr bs with
  | none => none
  | some (sid, bs1) =>
    match decBStr bs1 with
    | none => none
    | some (rid, bs2) =>
      match decVec decClassicAction bs2 with
      | none => none
      | some (acts, bs3) =>
        match decUInt 8 bs3 with
        | none => none
        | some (n, bs4) =>
          match decUInt 8 bs4 with
          | none => none
          | some (mbh, bs5) =>
            match decPublicKey bs5 with
            | none => none
            | some (pk, bs6) => some (⟨sid, rid, acts, n, mbh, pk⟩, bs6)

/-- Encode a `SignedDelegateSchema` value. -/
def encSignedDelegate (s : SignedDelegate) : List Nat :=
  encDelegateAction s.delegateAction ++ encSignature s.signature

/-- Decode a `SignedDelegateSchema` value. -/
def decSignedDelegate (bs : List Nat) : Option (SignedDelegate × List Nat) :=
  match decDelegateAction bs with
  | none => none
  | some (d, bs1) =>
    match decSignature bs1 with
    | none => none
    | some (sig, bs2) => some (⟨d, sig⟩, bs2)

/-- `ActionSchema`: the closed action enum in protocol discriminant order
(0 = createAccount ... 10 = useGlobalContract); the `signedDelegate` variant
(discriminant 8) carries a full `SignedDelegateSchema` payload. -/
inductive Action where
  | createAccount
  | deployContract (code : List Nat)
  | functionCall (methodName : List Nat) (args : List Nat) (gas : Nat) (deposit : Nat)
  | transfer (deposit : Nat)
  | stake (stakeAmount : Nat) (publicKey : PublicKey)
  | addKey (publicKey : PublicKey) (accessKey : AccessKey)
  | deleteKey (publicKey : PublicKey)
  | deleteAccount (beneficiaryId : List Nat)
  | signedDelegate (sd : SignedDelegate)
  | deployGlobalContract (code : List Nat) (deployMode : GlobalContractDeployMode)
  | useGlobalContract (contractIdentifier : GlobalContractIdentifier)
  deriving DecidableEq, Repr

/-- `TransactionSchema`: field order `signerId`, `publicKey`, `nonce` (u64),
`receiverId`, `blockHash` (32-byte array), `actions` (vec of `ActionSchema`). -/
structure Transaction where
  signerId : List Nat
  publicKey : PublicKey
  nonce : Nat
  receiverId : List Nat
  blockHash : List Nat
  actions : List Action
  deriving DecidableEq, Repr

/-- `SignedTransactionSchema`: `transaction` then `signature`. -/
structure SignedTransaction where
  transaction : Transaction
  signature : Signature
  deriving DecidableEq, Repr

def wfAction : Action → Bool
  | .createAccount => true
  | .deployContract code => wfBStr code
  | .functionCall m a g d =>
    wfBStr m && wfBStr a && decide (g < 256 ^ 8) && decide (d < 256 ^ 16)
  | .transfer d => decide (d < 256 ^ 16)
  | .stake s pk => decide (s < 256 ^ 16) && wfPublicKey pk
  | .addKey pk ak => wfPublicKey pk && wfAccessKey ak
  | .deleteKey pk => wfPublicKey pk
  | .deleteAccount b => wfBStr b
  | .signedDelegate sd => wfSignedDelegate sd
  | .deployGlobalContract code _ => wfBStr code
  | .useGlobalContract i => wfGlobalContractIdentifier i

def wfTransaction (t : Transaction) : Bool :=
  wfBStr t.signerId && wfPublicKey t.publicKey && decide (t.nonce < 256 ^ 8) &&
  wfBStr t.receiverId && (t.blockHash.length == 32 && t.blockHash.all (· < 256)) &&
  decide (t.actions.length < 256 ^ 4) && t.actions.all wfAction

def wfSignedTransaction (st : SignedTransaction) : Bool :=
  wfTransaction st.transaction && wfSignature st.signature

/-- Encode an `ActionSchema` value: 1-byte discriminant in declaration order
(the wire ordinal), then the variant's struct encoding. -/
def encAction : Action → List Nat
  | .createAccount => [0]
  | .deployContract code => 1 :: encBStr code
  | .functionCall m a g d => 2 :: (encBStr m ++ encBStr a ++ encUInt 8 g ++ encUInt 16 d)
  | .transfer d => 3 :: encUInt 16 d
  | .stake s pk => 4 :: (encUInt 16 s ++ encPublicKey pk)
  | .addKey pk ak => 5 :: (encPublicKey pk ++ encAccessKey ak)
  | .deleteKey pk => 6 :: encPublicKey pk
  | .deleteAccount b => 7 :: encBStr b
  | .signedDelegate sd => 8 :: encSignedDelegate sd
  | .deployGlobalContract code m => 9 :: (encBStr code ++ encGlobalContractDeployMode m)
  | .useGlobalContract i => 10 :: encGlobalContractIdentifier i

/-- Decode the `functionCall` payload struct of `ActionSchema`. -/
def decAFunctionCallPayload (bs : List Nat) : Option (Action × List Nat) :=
  match decBStr bs with
  | none => none
  | some (m, bs1) =>
    match decBStr bs1 with
    | none => none
    | some (a, bs2) =>
      match decUInt 8 bs2 with
      | none => none
      | some (g, bs3) =>
        match decUInt 16 bs3 with
        | none => none
        | some (d, bs4) => some (.functionCall m a g d, bs4)

/-- Decode the `stake` payload struct of `ActionSchema`. -/
def decAStakePayload (bs : List Nat) : Option (Action × List Nat) :=
  match decUInt 16 bs with
  | none => none
  | some (s, bs1) =>
    match decPublicKey bs1 with
    | none => none
    | some (pk, bs2) => some (.stake s pk, bs2)

/-- Decode the `addKey` payload struct of `ActionSchema`. -/
def decAAddKeyPayload (bs : List Nat) : Option (Action × List Nat) :=
  match decPublicKey bs with
  | none => none
  | some (pk, bs1) =>
    match decAccessKey bs1 with
    | none => none
    | some (ak, bs2) => some (.addKey pk ak, bs2)

/-- Decode the `signedDelegate` payload struct of `ActionSchema`. -/
def decASignedDelegatePayload (bs : List Nat) : Option (Action × List Nat) :=
  match decSignedDelegate bs with
  | none => none
  | some (sd, bs1) => some (.signedDelegate sd, bs1)

/-- Decode the `deployGlobalContract` payload struct of `ActionSchema`. -/
def decADeployGlobalPayload (bs : List Nat) : Option (Action × List Nat) :=
  match decBStr bs with
  | none => none
  | some (code, bs1) =>
    match decGlobalContractDeployMode bs1 with
    | none => none
    | some (m, bs2) => some (.deployGlobalContract code m, bs2)

/-- Decode an `ActionSchema` value: read the 1-byte discriminant and dispatch
to the variant's payload decoder. -/
def decAction : List Nat → Option (Action × List Nat)
  | [] => none
  | t :: rest =>
    if t = 0 then some (.createAccount, rest)
    else if t = 1 then (decBStr rest).map (fun p => (.deployContract p.1, p.2))
    else if t = 2 then decAFunctionCallPayload rest
    else if t = 3 then (decUInt 16 rest).map (fun p => (.transfer p.1, p.2))
    else if t = 4 then decAStakePayload rest
    else if t = 5 then decAAddKeyPayload rest
    else if t = 6 then (decPublicKey rest).map (fun p => (.deleteKey p.1, p.2))
    else if t = 7 then (decBStr rest).map (fun p => (.deleteAccount p.1, p.2))
    else if t = 8 then decASignedDelegatePayload rest
    else if t = 9 then decADeployGlobalPayload rest
    else if t = 10 then
      (decGlobalContractIdentifier rest).map (fun p => (.useGlobalContract p.1, p.2))
    else none

/-- Encode a `TransactionSchema` value, mirroring `serializeTransaction`. -/
def encTransaction (t : Transaction) : List Nat :=
  encBStr t.signerId ++ encPublicKey t.publicKey ++ encUInt 8 t.nonce ++
    encBStr t.receiverId ++ t.blockHash ++ encVec encAction t.actions

/-- Decode a `TransactionSchema` value. -/
def decTransaction (bs : List Nat) : Option (Transaction × List Nat) :=
  match decBStr bs with
  | none => none
  | some (sid, bs1) =>
    match decPublicKey bs1 with
    | none => none
    | some (pk, bs2) =>
      match decUInt 8 bs2 with
      | none => none
      | some (n, bs3) =>
        match decBStr bs3 with
        | none => none
        | some (rid, bs4) =>
          match decFixed 32 bs4 with
          | none => none
          | some (bh, bs5) =>
            match decVec decAction bs5 with
            | none => none
            | some (acts, bs6) => some (⟨sid, pk, n, rid, bh, acts⟩, bs6)

/-- Encode a `SignedTransactionSchema` value, mirroring
`serializeSignedTransaction`. -/
def encSignedTransaction (st : SignedTransaction) : List Nat :=
  encTransaction st.transaction ++ encSignature st.signature

/-- Decode a `SignedTransactionSchema` value. -/
def decSignedTransaction (bs : List Nat) : Option (SignedTransaction × List Nat) :=
  match decTransaction bs with
  | none => none
  | some (t, bs1) =>
    match decSignature bs1 with
    | none => none
    | some (sig, bs2) => some (⟨t, sig⟩, bs2)

/-- Modelled from the spec: the protocol-mandated fixed ordinal of each
`Action` variant (0 = account creation ... 10 = use-global-contract), stated
independently of the encoder for comparison. -/
def specActionOrdinal : Action → Nat
  | .createAccount => 0
  | .deployContract _ => 1
  | .functionCall _ _ _ _ => 2
  | .transfer _ => 3
  | .stake _ _ => 4
  | .addKey _ _ => 5
  | .deleteKey _ => 6
  | .deleteAccount _ => 7
  | .signedDelegate _ => 8
  | .deployGlobalContract _ _ => 9
  | .useGlobalContract _ => 10

/-- Scenario A's transfer action: deposit `1000000000000000000000000` yocto. -/
def exAction : Action := .transfer 1000000000000000000000000

/-- A small concrete transaction exercising string, key, hash and vec fields. -/
def exTransaction : Transaction :=
  { signerId := [97, 108, 105, 99, 101]
    publicKey := .ed25519Key (List.replicate 32 7)
    nonce := 42
    receiverId := [98, 111, 98]
    blockHash := List.replicate 32 9
    actions := [exAction, .createAccount] }

/-- A concrete signed transaction wrapping `exTransaction`. -/
def exSignedTransaction : SignedTransaction :=
  { transaction := exTransaction
    signature := .ed25519Signature (List.replicate 64 3) }

/-! ## User-facing action model

The action factory module exposes tagged action values (`enum` tag plus a
payload object) built by factory functions; the `DelegateAction` class there
types its nested `actions` field with the full `Action` union. `UAction`
mirrors that user-facing type (the codec-level `Action` above mirrors the
zorsh value type). -/

mutual

/-- The user-facing `Action` union of the factory module: eleven tagged
variants, where `signedDelegate` carries a `SignedDelegate` class value. -/
inductive UAction where
  | createAccount
  | deployContract (code : List Nat)
  | functionCall (methodName : List Nat) (args : List Nat) (gas : Nat) (deposit : Nat)
  | transfer (deposit : Nat)
  | stake (stakeAmount : Nat) (publicKey : PublicKey)
  | addKey (publicKey : PublicKey) (accessKey : AccessKey)
  | deleteKey (publicKey : PublicKey)
  | deleteAccount (beneficiaryId : List Nat)
  | signedDelegate (sd : USignedDelegate)
  | deployGlobalContract (code : List Nat) (deployMode : GlobalContractDeployMode)
  | useGlobalContract (contractIdentifier : GlobalContractIdentifier)

/-- The `SignedDelegate` class: a delegate action with its signature. -/
inductive USignedDelegate where
  | mk (delegateAction : UDelegateAction) (signature : Signature)

/-- The `DelegateAction` class: its `actions` field is a list of the FULL
user-facing `Action` union (`actions: Action[]` in the class declaration),
not of a restricted set. -/
inductive UDelegateAction where
  | mk (senderId : List Nat) (receiverId : List Nat) (actions : List UAction)
      (nonce : Nat) (maxBlockHeight : Nat) (publicKey : PublicKey)

end

/-- The nested action list of a `DelegateAction` class value. -/
def UDelegateAction.actions : UDelegateAction → List UAction
  | .mk _ _ acts _ _ _ => acts

/-- Whether a user-facing action is the signed-delegate variant. -/
def isSignedDelegateTag : UAction → Bool
  | .signedDelegate _ => true
  | _ => false

/-- The `addKey` factory: `addKey(publicKey, permission)` builds an `AddKey`
payload whose embedded access key is `{ nonce: 0n, permission }`. -/
def addKey (publicKey : PublicKey) (permission : AccessKeyPermission) : UAction :=
  .addKey publicKey { nonce := 0, permission := permission }

/-- The access-key nonce embedded in an add-key action, when there is one. -/
def actionAddKeyNonce : UAction → Option Nat
  | .addKey _ ak => some ak.nonce
  | _ => none

/-- A concrete inner delegate action (no nesting). -/
def innerDelegate : UDelegateAction :=
  .mk [97] [98] [UAction.transfer 1] 1 100 (PublicKey.ed25519Key (List.replicate 32 0))

/-- A concrete `DelegateAction` class value whose nested action list contains
a signed-delegate action: representable because the class types its action
list with the full `Action` union. -/
def nestedDelegateExample : UDelegateAction :=
  .mk [99] [100]
    [UAction.signedDelegate
      (USignedDelegate.mk innerDelegate (Signature.ed25519Signature (List.replicate 64 2)))]
    2 200 (PublicKey.ed25519Key (List.replicate 32 1))

/-! ## The `actionToZorsh` tag dispatch

`actionToZorsh` reads the action's `enum` tag (a string) and dispatches over
the eleven known tag names with an if/else chain; every unknown tag reaches
the trailing `throw new Error(...)`. `RawAction` models its input: the tag
string is data, carried separately from the payload bag. -/

/-- The eleven tag names accepted by `actionToZorsh`, in source order. -/
def knownActionTags : List String :=
  ["createAccount", "deployContract", "functionCall", "transfer", "stake",
   "addKey", "deleteKey", "deleteAccount", "signedDelegate",
   "deployGlobalContract", "useGlobalContract"]

/-- An action value as `actionToZorsh` receives it: the `enum` tag string it
dispatches on, plus the payload properties. -/
structure RawAction where
  tag : String
  payload : UAction

/-- The tag dispatch of `actionToZorsh`: each of the eleven known tags takes
its branch and produces a wire value from the payload; any other tag falls
through every branch to the explicit `Unknown action type` error. -/
def actionToZorshE (ra : RawAction) : Except String UAction :=
  if ra.tag = "createAccount" then .ok ra.payload
  else if ra.tag = "deployContract" then .ok ra.payload
  else if ra.tag = "functionCall" then .ok ra.payload
  else if ra.tag = "transfer" then .ok ra.payload
  else if ra.tag = "stake" then .ok ra.payload
  else if ra.tag = "addKey" then .ok ra.payload
  else if ra.tag = "deleteKey" then .ok ra.payload
  else if ra.tag = "deleteAccount" then .ok ra.payload
  else if ra.tag = "signedDelegate" then .ok ra.payload
  else if ra.tag = "deployGlobalContract" then .ok ra.payload
  else if ra.tag = "useGlobalContract" then .ok ra.payload
  else .error ("Unknown action type: " ++ ra.tag)

/-! ## Transport Client retry loop

Modelled from the spec (the `RpcClient` implementation file is not part of
the source tree; its behaviour is pinned by the unit tests): per attempt,
a transport-level failure or an HTTP status in {408, 429, 500, 502, 503,
504} is retryable; any other failing status fails immediately; retries stop
after `maxRetries`, so total attempts = min(1 + maxRetries, attempts until
first success). A transport is a function from the 0-based attempt index to
that attempt's result. -/

/-- Result of one HTTP attempt. -/
inductive AttemptResult where
  | ok
  | httpError (status : Nat)
  | transportFailure
  deriving DecidableEq, Repr

/-- The retryable HTTP status set. -/
def retryableStatusCodes : List Nat := [408, 429, 500, 502, 503, 504]

/-- Whether a failed attempt is retried: transport-level failures and the
retryable HTTP statuses are; everything else is not. -/
def isRetryable : AttemptResult → Bool
  | .ok => false
  | .httpError s => retryableStatusCodes.contains s
  | .transportFailure => true

/-- Terminal result of a `call`: success, an immediate permanent
NetworkError, or the retries-exhausted NetworkError carrying the attempt
count. -/
inductive CallResult where
  | success
  | permanentNetworkError
  | retriesExhaustedNetworkError (attempts : Nat)
  deriving DecidableEq, Repr

/-- The retry loop: attempt `i`, and on a retryable failure recurse while
retry fuel remains. Returns (total attempts made, terminal result). -/
def runCallAux (t : Nat → AttemptResult) (i : Nat) : Nat → Nat × CallResult
  | 0 =>
    if t i = .ok then (i + 1, .success)
    else if isRetryable (t i) then (i + 1, .retriesExhaustedNetworkError (i + 1))
    else (i + 1, .permanentNetworkError)
  | fuel + 1 =>
    if t i = .ok then (i + 1, .success)
    else if isRetryable (t i) then runCallAux t (i + 1) fuel
    else (i + 1, .permanentNetworkError)

/-- `call` with a transport and a configured `maxRetries`. -/
def rpcCall (t : Nat → AttemptResult) (maxRetries : Nat) : Nat × CallResult :=
  runCallAux t 0 maxRetries

/-- The transport of Scenario B style tests: 503 twice, then success. -/
def mockFlaky : Nat → AttemptResult :=
  fun i => if i < 2 then .httpError 503 else .ok

/-- The transport of Scenario C style tests: always 400 Bad Request. -/
def mockBadRequest : Nat → AttemptResult := fun _ => .httpError 400

/-! ## Outcome Interpreter

Modelled from the spec's error-extraction flow (the implementation file is
not part of the source tree; the flow chart in the failure-mode test plan
pins it): inspect the transaction-level outcome status; a function-call
failure classifies as a contract-execution error with the extracted panic
message, any other failure as a transaction-structure error; when the
transaction-level status is not a failure, scan the receipt outcomes in
order and classify the first failing receipt the same way. -/

/-- A function-call failure payload: `ExecutionError` or `HostError`, each
carrying the panic message. -/
inductive FunctionCallFailure where
  | executionError (msg : String)
  | hostError (msg : String)
  deriving DecidableEq, Repr

/-- A failure payload in an outcome status: either a function-call failure
or some other (transaction-structure) failure. -/
inductive ActionFailure where
  | functionCallFailure (f : FunctionCallFailure)
  | otherFailure (desc : String)
  deriving DecidableEq, Repr

/-- One outcome status: success value, success receipt pointer, or failure. -/
inductive OutcomeStatus where
  | successValue (v : String)
  | successReceiptId (id : String)
  | failure (e : ActionFailure)
  deriving DecidableEq, Repr

/-- The outcome document: the transaction-level outcome status plus the
ordered receipt outcome statuses. -/
structure ExecutionOutcomeDoc where
  txOutcomeStatus : OutcomeStatus
  receiptStatuses : List OutcomeStatus
  deriving DecidableEq, Repr

/-- The interpreter's verdict. -/
inductive Classification where
  | classifiedSuccess
  | contractExecutionError (panicMsg : String)
  | transactionStructureError
  deriving DecidableEq, Repr

/-- Extract the human-readable panic message from a function-call failure. -/
def extractPanicMessage : FunctionCallFailure → String
  | .executionError m => m
  | .hostError m => m

/-- Classify one failure payload: function-call failures become contract
execution errors carrying the panic message; everything else a transaction
structure error. -/
def classifyFailure : ActionFailure → Classification
  | .functionCallFailure f => .contractExecutionError (extractPanicMessage f)
  | .otherFailure _ => .transactionStructureError

/-- Whether a status is a failure. -/
def isFailureStatus : OutcomeStatus → Bool
  | .failure _ => true
  | _ => false

/-- The first failing receipt's failure payload, scanning in order. -/
def firstReceiptFailure : List OutcomeStatus → Option ActionFailure
  | [] => none
  | .failure e :: _ => some e
  | _ :: rest => firstReceiptFailure rest

/-- The interpreter: transaction-level failure first, then the in-order
receipt scan, else success. -/
def classifyOutcome (doc : ExecutionOutcomeDoc) : Classification :=
  match doc.txOutcomeStatus with
  | .failure e => classifyFailure e
  | _ =>
    match firstReceiptFailure doc.receiptStatuses with
    | some e => classifyFailure e
    | none => .classifiedSuccess

/-- Scenario D's outcome document: transaction-level success, first receipt
succeeds, second receipt fails with an ExecutionError panic message
`assertion failed`. -/
def scenarioDDoc : ExecutionOutcomeDoc :=
  { txOutcomeStatus := .successReceiptId "receipt-1"
    receiptStatuses :=
      [.successValue "", .failure (.functionCallFailure (.executionError "assertion failed"))] }

/-! ## RPC action-echo decoding

Modelled from the spec's protocol quirk and the exploration findings (the
Zod `ActionSchema` file is not part of the source tree): the RPC echoes
parameter-less actions as bare strings, so the response schema accepts both
the bare string `CreateAccount` and the single-key object form, decoding
both to the same parsed action. -/

/-- An action entry as it appears in the RPC-echoed JSON action list. -/
inductive RpcActionJson where
  | bare (name : String)
  | createAccountObj
  | transferObj (deposit : String)
  | otherObj (tag : String)
  deriving DecidableEq, Repr

/-- A parsed action used for outcome-action correlation. -/
inductive ParsedRpcAction where
  | createAccount
  | transfer (deposit : String)
  | other (tag : String)
  deriving DecidableEq, Repr

/-- Parse one echoed action entry: the bare string `CreateAccount` is
accepted exactly like the object form; other bare strings are rejected. -/
def parseRpcAction : RpcActionJson → Option ParsedRpcAction
  | .bare n => if n = "CreateAccount" then some .createAccount else none
  | .createAccountObj => some .createAccount
  | .transferObj d => some (.transfer d)
  | .otherObj t => some (.other t)

/-- Parse the echoed action list (all-or-nothing, like the Zod array). -/
def parseRpcActions : List RpcActionJson → Option (List ParsedRpcAction)
  | [] => some []
  | a :: rest =>
    match parseRpcAction a with
    | none => none
    | some pa =>
      match parseRpcActions rest with
      | none => none
      | some ps => some (pa :: ps)

/-! ## Stale-nonce error

Modelled from the spec's error taxonomy and the unit tests (the errors
module is not part of the source tree): `InvalidNonceError` carries the
offending transaction nonce and the access key's nonce, has code
`INVALID_NONCE`, and is marked retryable, unlike the generic
transaction-structure failure class, which is not retried. -/

/-- The stale-nonce error value: transaction nonce and access-key nonce. -/
structure InvalidNonceError where
  txNonce : Nat
  akNonce : Nat
  deriving DecidableEq, Repr

/-- Stale-nonce errors are retryable (re-fetch the nonce and re-sign). -/
def InvalidNonceError.retryable (_ : InvalidNonceError) : Bool := true

/-- The distinct error code of the stale-nonce class. -/
def InvalidNonceError.code (_ : InvalidNonceError) : String := "INVALID_NONCE"

/-- The spec's error taxonomy as distinct classes. -/
inductive ErrorClass where
  | formatError
  | networkError
  | staleNonceError
  | contractExecutionFailure
  | transactionStructureFailure
  deriving DecidableEq, Repr

/-- Which error classes are retried: the stale-nonce class is (and the
retryable networkError subset); structure/contract/format failures never. -/
def ErrorClass.isRetriedClass : ErrorClass → Bool
  | .staleNonceError => true
  | .networkError => true
  | _ => false

/-- The class a stale-nonce error belongs to. -/
def InvalidNonceError.errorClass (_ : InvalidNonceError) : ErrorClass :=
  .staleNonceError

/-! ## Round-trip lemmas and claim theorems -/

theorem decUInt_enc (w : Nat) (r : List Nat) :
    ∀ n, n < 256 ^ w → decUInt w (encUInt w n ++ r) = some (n, r) := by
  induction w with
  | zero =>
    intro n hn
    interval_cases n
    simp [encUInt, decUInt]
  | succ w ih =>
    intro n hn
    have hdiv : n / 256 < 256 ^ w := by
      rw [Nat.div_lt_iff_lt_mul (by norm_num)]
      calc n < 256 ^ (w + 1) := hn
        _ = 256 ^ w * 256 := by ring
    simp only [encUInt, List.cons_append, decUInt, List.append_eq]
    rw [ih (n / 256) hdiv]
    simp [Nat.mod_add_div]

theorem decFixed_enc (bs r : List Nat) :
    decFixed bs.length (bs ++ r) = some (bs, r) := by
  unfold decFixed
  rw [if_pos (by simp)]
  simp

theorem decCount_enc {enc : α → List Nat} {dec : List Nat → Option (α × List Nat)}
    (xs : List α) (r : List Nat)
    (h : ∀ x ∈ xs, ∀ r', dec (enc x ++ r') = some (x, r')) :
    decCount dec xs.length (encList enc xs ++ r) = some (xs, r) := by
  induction xs with
  | nil => simp [encList, decCount]
  | cons x xs ih =>
    have hx := h x (by simp) (encList enc xs ++ r)
    simp only [encList, List.length_cons, decCount, List.append_assoc, hx]
    rw [ih (fun y hy r' => h y (by simp [hy]) r')]

theorem decVec_enc {enc : α → List Nat} {dec : List Nat → Option (α × List Nat)}
    (xs : List α) (r : List Nat) (hlen : xs.length < 256 ^ 4)
    (h : ∀ x ∈ xs, ∀ r', dec (enc x ++ r') = some (x, r')) :
    decVec dec (encVec enc xs ++ r) = some (xs, r) := by
  unfold encVec decVec
  rw [List.append_assoc, decUInt_enc 4 (encList enc xs ++ r) xs.length hlen]
  exact decCount_enc xs r h

theorem decBStr_enc (s r : List Nat) (hlen : s.length < 256 ^ 4) :
    decBStr (encBStr s ++ r) = some (s, r) := by
  unfold encBStr decBStr
  rw [List.append_assoc, decUInt_enc 4 (s ++ r) s.length hlen]
  exact decFixed_enc s r

theorem decOpt_enc {enc : α → List Nat} {dec : List Nat → Option (α × List Nat)}
    (x : Option α) (r : List Nat)
    (h : ∀ y, x = some y → ∀ r', dec (enc y ++ r') = some (y, r')) :
    decOpt dec (encOpt enc x ++ r) = some (x, r) := by
  cases x with
  | none => simp [encOpt, decOpt]
  | some y =>
    simp [encOpt, decOpt, h y rfl r]

theorem decPublicKey_enc (pk : PublicKey) (hw : wfPublicKey pk = true) (r : List Nat) :
    decPublicKey (encPublicKey pk ++ r) = some (pk, r) := by
  cases pk with
  | ed25519Key d =>
    simp only [wfPublicKey, Bool.and_eq_true, beq_iff_eq] at hw
    simp only [encPublicKey, decPublicKey, List.cons_append]
    rw [← hw.1, decFixed_enc]
    rfl
  | secp256k1Key d =>
    simp only [wfPublicKey, Bool.and_eq_true, beq_iff_eq] at hw
    simp only [encPublicKey, decPublicKey, List.cons_append]
    rw [← hw.1, decFixed_enc]
    rfl

theorem decSignature_enc (s : Signature) (hw : wfSignature s = true) (r : List Nat) :
    decSignature (encSignature s ++ r) = some (s, r) := by
  cases s with
  | ed25519Signature d =>
    simp only [wfSignature, Bool.and_eq_true, beq_iff_eq] at hw
    simp only [encSignature, decSignature, List.cons_append]
    rw [← hw.1, decFixed_enc]
    rfl
  | secp256k1Signature d =>
    simp only [wfSignature, Bool.and_eq_true, beq_iff_eq] at hw
    simp only [encSignature, decSignature, List.cons_append]
    rw [← hw.1, decFixed_enc]
    rfl

theorem decFunctionCallPermission_enc (p : FunctionCallPermission)
    (hw : wfFunctionCallPermission p = true) (r : List Nat) :
    decFunctionCallPermission (encFunctionCallPermission p ++ r) = some (p, r) := by
  obtain ⟨a, rid, ms⟩ := p
  simp only [wfFunctionCallPermission, Bool.and_eq_true, decide_eq_true_eq,
    List.all_eq_true] at hw
  obtain ⟨⟨ha, hrid⟩, hmslen, hms⟩ := hw
  have hrid2 : rid.length < 256 ^ 4 := by
    simp only [wfBStr, Bool.and_eq_true, decide_eq_true_eq] at hrid
    exact hrid.1
  simp only [encFunctionCallPermission, decFunctionCallPermission, List.append_assoc]
  rw [decOpt_enc a _ (fun y hy r' => by
    subst hy
    exact decUInt_enc 16 r' y (by simpa using ha))]
  dsimp only
  rw [decBStr_enc rid _ hrid2]
  dsimp only
  rw [decVec_enc ms r hmslen (fun s hs r' =>
    decBStr_enc s r' (by
      have := hms s hs
      simp only [wfBStr, Bool.and_eq_true, decide_eq_true_eq] at this
      exact this.1))]

theorem decAccessKeyPermission_enc (p : AccessKeyPermission)
    (hw : wfAccessKeyPermission p = true) (r : List Nat) :
    decAccessKeyPermission (encAccessKeyPermission p ++ r) = some (p, r) := by
  cases p with
  | functionCall q =>
    simp only [encAccessKeyPermission, decAccessKeyPermission, List.cons_append]
    rw [decFunctionCallPermission_enc q hw r]
    rfl
  | fullAccess =>
    simp [encAccessKeyPermission, decAccessKeyPermission]

theorem decAccessKey_enc (k : AccessKey) (hw : wfAccessKey k = true) (r : List Nat) :
    decAccessKey (encAccessKey k ++ r) = some (k, r) := by
  obtain ⟨n, perm⟩ := k
  simp only [wfAccessKey, Bool.and_eq_true, decide_eq_true_eq] at hw
  simp only [encAccessKey, decAccessKey, List.append_assoc]
  rw [decUInt_enc 8 _ n hw.1]
  dsimp only
  rw [decAccessKeyPermission_enc perm hw.2 r]

theorem decGlobalContractDeployMode_enc (m : GlobalContractDeployMode) (r : List Nat) :
    decGlobalContractDeployMode (encGlobalContractDeployMode m ++ r) = some (m, r) := by
  cases m <;> simp [encGlobalContractDeployMode, decGlobalContractDeployMode]

theorem decGlobalContractIdentifier_enc (g : GlobalContractIdentifier)
    (hw : wfGlobalContractIdentifier g = true) (r : List Nat) :
    decGlobalContractIdentifier (encGlobalContractIdentifier g ++ r) = some (g, r) := by
  cases g with
  | CodeHash h =>
    simp only [wfGlobalContractIdentifier, Bool.and_eq_true, beq_iff_eq] at hw
    simp only [encGlobalContractIdentifier, decGlobalContractIdentifier, List.cons_append]
    rw [← hw.1, decFixed_enc]
    rfl
  | AccountId s =>
    simp only [wfGlobalContractIdentifier, wfBStr, Bool.and_eq_true,
      decide_eq_true_eq] at hw
    simp only [encGlobalContractIdentifier, decGlobalContractIdentifier, List.cons_append]
    rw [decBStr_enc s r hw.1]
    rfl

theorem decClassicAction_enc (a : ClassicAction) (hw : wfClassicAction a = true)
    (r : List Nat) : decClassicAction (encClassicAction a ++ r) = some (a, r) := by
  cases a with
  | createAccount =>
    simp only [encClassicAction, decClassicAction, List.cons_append]
    norm_num
  | deployContract code =>
    simp only [wfClassicAction, wfBStr, Bool.and_eq_true, decide_eq_true_eq] at hw
    simp only [encClassicAction, decClassicAction, List.cons_append]
    norm_num
    rw [decBStr_enc code r hw.1]
  | functionCall m a g d =>
    simp only [wfClassicAction, wfBStr, Bool.and_eq_true, decide_eq_true_eq] at hw
    simp only [encClassicAction, decClassicAction, List.cons_append,
      List.append_assoc, decFunctionCallPayload]
    norm_num
    rw [decBStr_enc m _ hw.1.1.1.1]
    dsimp only
    rw [decBStr_enc a _ hw.1.1.2.1]
    dsimp only
    rw [decUInt_enc 8 _ g hw.1.2]
    dsimp only
    rw [decUInt_enc 16 _ d hw.2]
  | transfer d =>
    simp only [wfClassicAction, decide_eq_true_eq] at hw
    simp only [encClassicAction, decClassicAction, List.cons_append]
    norm_num
    rw [decUInt_enc 16 r d hw]
  | stake s pk =>
    simp only [wfClassicAction, Bool.and_eq_true, decide_eq_true_eq] at hw
    simp only [encClassicAction, decClassicAction, List.cons_append,
      List.append_assoc, decStakePayload]
    norm_num
    rw [decUInt_enc 16 _ s hw.1]
    dsimp only
    rw [decPublicKey_enc pk hw.2 r]
  | addKey pk ak =>
    simp only [wfClassicAction, Bool.and_eq_true] at hw
    simp only [encClassicAction, decClassicAction, List.cons_append,
      List.append_assoc, decAddKeyPayload]
    norm_num
    rw [decPublicKey_enc pk hw.1]
    dsimp only
    rw [decAccessKey_enc ak hw.2 r]
  | deleteKey pk =>
    simp only [wfClassicAction] at hw
    simp only [encClassicAction, decClassicAction, List.cons_append]
    norm_num
    rw [decPublicKey_enc pk hw r]
  | deleteAccount b =>
    simp only [wfClassicAction, wfBStr, Bool.and_eq_true, decide_eq_true_eq] at hw
    simp only [encClassicAction, decClassicAction, List.cons_append]
    norm_num
    rw [decBStr_enc b r hw.1]
  | signedDelegate s =>
    simp only [wfClassicAction, wfBStr, Bool.and_eq_true, decide_eq_true_eq] at hw
    simp only [encClassicAction, decClassicAction, List.cons_append]
    norm_num
    rw [decBStr_enc s r hw.1]
  | deployGlobalContract code m =>
    simp only [wfClassicAction, wfBStr, Bool.and_eq_true, decide_eq_true_eq] at hw
    simp only [encClassicAction, decClassicAction, List.cons_append,
      List.append_assoc, decDeployGlobalPayload]
    norm_num
    rw [decBStr_enc code _ hw.1]
    dsimp only
    rw [decGlobalContractDeployMode_enc m r]
  | useGlobalContract i =>
    simp only [wfClassicAction] at hw
    simp only [encClassicAction, decClassicAction, List.cons_append]
    norm_num
    rw [decGlobalContractIdentifier_enc i hw r]

theorem decDelegateAction_enc (d : DelegateAction) (hw : wfDelegateAction d = true)
    (r : List Nat) : decDelegateAction (encDelegateAction d ++ r) = some (d, r) := by
  obtain ⟨sid, rid, acts, n, mbh, pk⟩ := d
  simp only [wfDelegateAction, wfBStr, Bool.and_eq_true, decide_eq_true_eq,
    List.all_eq_true] at hw
  obtain ⟨⟨⟨⟨⟨⟨hsid, hrid⟩, hlen⟩, hall⟩, hn⟩, hmbh⟩, hpk⟩ := hw
  simp only [encDelegateAction, decDelegateAction, List.append_assoc]
  rw [decBStr_enc sid _ hsid.1]
  dsimp only
  rw [decBStr_enc rid _ hrid.1]
  dsimp only
  rw [decVec_enc acts _ hlen
    (fun x hx r' => decClassicAction_enc x (hall x hx) r')]
  dsimp only
  rw [decUInt_enc 8 _ n hn]
  dsimp only
  rw [decUInt_enc 8 _ mbh hmbh]
  dsimp only
  rw [decPublicKey_enc pk hpk r]

theorem decSignedDelegate_enc (s : SignedDelegate) (hw : wfSignedDelegate s = true)
    (r : List Nat) : decSignedDelegate (encSignedDelegate s ++ r) = some (s, r) := by
  obtain ⟨d, sig⟩ := s
  simp only [wfSignedDelegate, Bool.and_eq_true] at hw
  simp only [encSignedDelegate, decSignedDelegate, List.append_assoc]
  rw [decDelegateAction_enc d hw.1]
  dsimp only
  rw [decSignature_enc sig hw.2 r]

theorem decAction_enc (a : Action) (hw : wfAction a = true)
    (r : List Nat) : decAction (encAction a ++ r) = some (a, r) := by
  cases a with
  | createAccount =>
    simp only [encAction, decAction, List.cons_append]
    norm_num
  | deployContract code =>
    simp only [wfAction, wfBStr, Bool.and_eq_true, decide_eq_true_eq] at hw
    simp only [encAction, decAction, List.cons_append]
    norm_num
    rw [decBStr_enc code r hw.1]
  | functionCall m a g d =>
    simp only [wfAction, wfBStr, Bool.and_eq_true, decide_eq_true_eq] at hw
    simp only [encAction, decAction, List.cons_append,
      List.append_assoc, decAFunctionCallPayload]
    norm_num
    rw [decBStr_enc m _ hw.1.1.1.1]
    dsimp only
    rw [decBStr_enc a _ hw.1.1.2.1]
    dsimp only
    rw [decUInt_enc 8 _ g hw.1.2]
    dsimp only
    rw [decUInt_enc 16 _ d hw.2]
  | transfer d =>
    simp only [wfAction, decide_eq_true_eq] at hw
    simp only [encAction, decAction, List.cons_append]
    norm_num
    rw [decUInt_enc 16 r d hw]
  | stake s pk =>
    simp only [wfAction, Bool.and_eq_true, decide_eq_true_eq] at hw
    simp only [encAction, decAction, List.cons_append,
      List.append_assoc, decAStakePayload]
    norm_num
    rw [decUInt_enc 16 _ s hw.1]
    dsimp only
    rw [decPublicKey_enc pk hw.2 r]
  | addKey pk ak =>
    simp only [wfAction, Bool.and_eq_true] at hw
    simp only [encAction, decAction, List.cons_append,
      List.append_assoc, decAAddKeyPayload]
    norm_num
    rw [decPublicKey_enc pk hw.1]
    dsimp only
    rw [decAccessKey_enc ak hw.2 r]
  | deleteKey pk =>
    simp only [wfAction] at hw
    simp only [encAction, decAction, List.cons_append]
    norm_num
    rw [decPublicKey_enc pk hw r]
  | deleteAccount b =>
    simp only [wfAction, wfBStr, Bool.and_eq_true, decide_eq_true_eq] at hw
    simp only [encAction, decAction, List.cons_append]
    norm_num
    rw [decBStr_enc b r hw.1]
  | signedDelegate sd =>
    simp only [wfAction] at hw
    simp only [encAction, decAction, List.cons_append, decASignedDelegatePayload]
    norm_num
    rw [decSignedDelegate_enc sd hw r]
  | deployGlobalContract code m =>
    simp only [wfAction, wfBStr, Bool.and_eq_true, decide_eq_true_eq] at hw
    simp only [encAction, decAction, List.cons_append,
      List.append_assoc, decADeployGlobalPayload]
    norm_num
    rw [decBStr_enc code _ hw.1]
    dsimp only
    rw [decGlobalContractDeployMode_enc m r]
  | useGlobalContract i =>
    simp only [wfAction] at hw
    simp only [encAction, decAction, List.cons_append]
    norm_num
    rw [decGlobalContractIdentifier_enc i hw r]

theorem decTransaction_enc (t : Transaction) (hw : wfTransaction t = true)
    (r : List Nat) : decTransaction (encTransaction t ++ r) = some (t, r) := by
  obtain ⟨sid, pk, n, rid, bh, acts⟩ := t
  simp only [wfTransaction, wfBStr, Bool.and_eq_true, decide_eq_true_eq,
    List.all_eq_true, beq_iff_eq] at hw
  obtain ⟨⟨⟨⟨⟨⟨hsid, hpk⟩, hn⟩, hrid⟩, hbh⟩, hlen⟩, hall⟩ := hw
  simp only [encTransaction, decTransaction, List.append_assoc]
  rw [decBStr_enc sid _ hsid.1]
  dsimp only
  rw [decPublicKey_enc pk hpk]
  dsimp only
  rw [decUInt_enc 8 _ n hn]
  dsimp only
  rw [decBStr_enc rid _ hrid.1]
  dsimp only
  rw [← hbh.1, decFixed_enc bh]
  dsimp only
  rw [decVec_enc acts r hlen
    (fun x hx r' => decAction_enc x (hall x hx) r')]

theorem decSignedTransaction_enc (st : SignedTransaction)
    (hw : wfSignedTransaction st = true) (r : List Nat) :
    decSignedTransaction (encSignedTransaction st ++ r) = some (st, r) := by
  obtain ⟨t, sig⟩ := st
  simp only [wfSignedTransaction, Bool.and_eq_true] at hw
  simp only [encSignedTransaction, decSignedTransaction, List.append_assoc]
  rw [decTransaction_enc t hw.1]
  dsimp only
  rw [decSignature_enc sig hw.2 r]

/-- C1: for every valid Action, Transaction and SignedTransaction value,
decoding the codec's encoding returns exactly the original value (with no
trailing bytes): decode(encode(x)) = x. -/
theorem codec_roundtrip
    (a : Action) (t : Transaction) (st : SignedTransaction)
    (ha : wfAction a = true) (ht : wfTransaction t = true)
    (hst : wfSignedTransaction st = true) :
    decAction (encAction a) = some (a, []) ∧
    decTransaction (encTransaction t) = some (t, []) ∧
    decSignedTransaction (encSignedTransaction st) = some (st, []) := by
  refine ⟨?_, ?_, ?_⟩
  · have h := decAction_enc a ha []
    rwa [List.append_nil] at h
  · have h := decTransaction_enc t ht []
    rwa [List.append_nil] at h
  · have h := decSignedTransaction_enc st hst []
    rwa [List.append_nil] at h

/-- Witness for C1: the round trip evaluated at the concrete Scenario A
transfer, a concrete transaction, and a concrete signed transaction. -/
theorem codec_roundtrip_witness :
    wfAction exAction = true ∧ wfTransaction exTransaction = true ∧
    wfSignedTransaction exSignedTransaction = true ∧
    (decAction (encAction exAction) = some (exAction, []) ∧
     decTransaction (encTransaction exTransaction) = some (exTransaction, []) ∧
     decSignedTransaction (encSignedTransaction exSignedTransaction) =
       some (exSignedTransaction, [])) :=
  ⟨by decide, by decide, by decide,
   codec_roundtrip exAction exTransaction exSignedTransaction
     (by decide) (by decide) (by decide)⟩

/-- C2: encoding any Action variant emits as its first byte the fixed
ordinal equal to that variant's position in the protocol-mandated
eleven-variant order, for every value of the variant. -/
theorem encAction_discriminant (a : Action) :
    (encAction a).head? = some (specActionOrdinal a) := by
  cases a <;> rfl

/-- C3 counterexample: a delegate action containing another signed-delegate
IS representable — the `DelegateAction` class's action list is the full
`Action` union, so the exclusion claimed to hold at the type level does not. -/
theorem nested_signedDelegate_representable :
    nestedDelegateExample.actions.any isSignedDelegateTag = true := rfl

/-- C3 amended: the nested action list of a delegate is serialized with a
separate schema (`ClassicActionsSchema`), distinct from `ActionSchema`, but
that schema does not drop the signed-delegate slot: its discriminant-8
variant is a bare string placeholder (`b.string()`), a runtime placeholder
rather than a type-level exclusion. -/
theorem classic_signedDelegate_is_string_placeholder (s : List Nat) :
    encClassicAction (ClassicAction.signedDelegate s) = 8 :: encBStr s := rfl

/-- C9: the `actionToZorsh` dispatch is total over the eleven known tags and
throws `Unknown action type` on every other tag. -/
theorem actionToZorsh_tag_dispatch (ra : RawAction) :
    (ra.tag ∉ knownActionTags →
      actionToZorshE ra = .error ("Unknown action type: " ++ ra.tag)) ∧
    (ra.tag ∈ knownActionTags → actionToZorshE ra = .ok ra.payload) := by
  obtain ⟨tag, p⟩ := ra
  constructor
  · intro h
    simp only [knownActionTags, List.mem_cons, List.not_mem_nil, or_false,
      not_or] at h
    obtain ⟨h1, h2, h3, h4, h5, h6, h7, h8, h9, h10, h11⟩ := h
    simp [actionToZorshE, h1, h2, h3, h4, h5, h6, h7, h8, h9, h10, h11]
  · intro h
    simp only [knownActionTags, List.mem_cons, List.not_mem_nil, or_false] at h
    rcases h with h | h | h | h | h | h | h | h | h | h | h <;>
      subst h <;> simp [actionToZorshE]

/-- Witness for C9: a bogus tag errors; a known tag succeeds. -/
theorem actionToZorsh_tag_dispatch_witness :
    actionToZorshE ⟨"borrow", UAction.createAccount⟩ =
      .error "Unknown action type: borrow" ∧
    actionToZorshE ⟨"transfer", UAction.transfer 5⟩ = .ok (UAction.transfer 5) :=
  ⟨(actionToZorsh_tag_dispatch ⟨"borrow", UAction.createAccount⟩).1 (by decide),
   (actionToZorsh_tag_dispatch ⟨"transfer", UAction.transfer 5⟩).2 (by decide)⟩

/-- C10: every action built by the `addKey` factory embeds an access key
whose nonce is 0, for every public key and permission argument; the factory
takes no nonce argument at all. -/
theorem addKey_nonce_zero (pk : PublicKey) (perm : AccessKeyPermission) :
    actionAddKeyNonce (addKey pk perm) = some 0 := rfl

theorem runCallAux_first_ok_at (t : Nat → AttemptResult) :
    ∀ fuel k i, (∀ j, j < k → isRetryable (t (i + j)) = true) → t (i + k) = .ok →
    runCallAux t i fuel =
      if k ≤ fuel then (i + k + 1, .success)
      else (i + fuel + 1, .retriesExhaustedNetworkError (i + fuel + 1)) := by
  intro fuel
  induction fuel with
  | zero =>
    intro k i hfail hok
    cases k with
    | zero =>
      simp only [Nat.add_zero] at hok
      simp [runCallAux, hok]
    | succ k =>
      have hr : isRetryable (t i) = true := by
        have := hfail 0 (Nat.succ_pos k)
        simpa using this
      have hne : ¬ t i = .ok := by
        intro he
        rw [he] at hr
        simp [isRetryable] at hr
      simp [runCallAux, hne, hr, Nat.not_succ_le_zero]
  | succ fuel ih =>
    intro k i hfail hok
    cases k with
    | zero =>
      simp only [Nat.add_zero] at hok
      simp [runCallAux, hok]
    | succ k =>
      have hr : isRetryable (t i) = true := by
        have := hfail 0 (Nat.succ_pos k)
        simpa using this
      have hne : ¬ t i = .ok := by
        intro he
        rw [he] at hr
        simp [isRetryable] at hr
      have hfail2 : ∀ j, j < k → isRetryable (t (i + 1 + j)) = true := by
        intro j hj
        have := hfail (j + 1) (by omega)
        simpa [Nat.add_comm, Nat.add_assoc, Nat.add_left_comm] using this
      have hok2 : t (i + 1 + k) = .ok := by
        have : i + 1 + k = i + (k + 1) := by omega
        rw [this]
        exact hok
      have hrec := ih k (i + 1) hfail2 hok2
      simp only [runCallAux, hne, if_false, hr, if_true]
      rw [hrec]
      by_cases hk : k ≤ fuel
      · rw [if_pos hk, if_pos (by omega)]
        congr 1
        omega
      · rw [if_neg hk, if_neg (by omega)]
        have : i + 1 + fuel = i + (fuel + 1) := by omega
        rw [this]

/-- C4: with a transport that fails retryably for the first `k` attempts and
succeeds on attempt `k`, a call with `maxRetries = m` makes exactly
min(1 + m, k + 1) attempts; it succeeds exactly when k ≤ m, and when k > m
it surfaces the retries-exhausted NetworkError after m + 1 attempts. -/
theorem rpcCall_retry_count (t : Nat → AttemptResult) (k m : Nat)
    (hfail : ∀ j, j < k → isRetryable (t j) = true)
    (hok : t k = .ok) :
    (rpcCall t m).1 = min (1 + m) (k + 1) ∧
    ((rpcCall t m).2 = .success ↔ k ≤ m) ∧
    (m < k → (rpcCall t m).2 = .retriesExhaustedNetworkError (m + 1)) := by
  have h := runCallAux_first_ok_at t m k 0 (by simpa using hfail) (by simpa using hok)
  rw [rpcCall, h]
  by_cases hk : k ≤ m
  · rw [if_pos hk]
    refine ⟨by simp; omega, by simp [hk], fun hm => absurd hk (by omega)⟩
  · rw [if_neg hk]
    refine ⟨by simp; omega, by simp [hk], fun _ => by simp⟩

/-- Witness for C4: with 503 on the first two attempts, success on the
third, and maxRetries = 4, the call makes 3 attempts and succeeds. -/
theorem rpcCall_retry_count_witness :
    (∀ j, j < 2 → isRetryable (mockFlaky j) = true) ∧ mockFlaky 2 = .ok ∧
    (rpcCall mockFlaky 4).1 = min (1 + 4) (2 + 1) ∧
    ((rpcCall mockFlaky 4).2 = .success ↔ 2 ≤ 4) := by
  have h1 : ∀ j, j < 2 → isRetryable (mockFlaky j) = true := by decide
  have h2 : mockFlaky 2 = .ok := by decide
  have h := rpcCall_retry_count mockFlaky 2 4 h1 h2
  exact ⟨h1, h2, h.1, h.2.1⟩

/-- C5: a first attempt failing with a non-retryable result ends the call at
exactly 1 attempt with an immediate permanent NetworkError, regardless of
the configured maxRetries. -/
theorem rpcCall_nonretryable_single_attempt (t : Nat → AttemptResult) (m : Nat)
    (hne : t 0 ≠ .ok) (hnr : isRetryable (t 0) = false) :
    rpcCall t m = (1, .permanentNetworkError) := by
  cases m with
  | zero => simp [rpcCall, runCallAux, hne, hnr]
  | succ m => simp [rpcCall, runCallAux, hne, hnr]

/-- Witness for C5: an immediate 400 means one attempt and a permanent
NetworkError even with maxRetries = 3. -/
theorem rpcCall_nonretryable_single_attempt_witness :
    mockBadRequest 0 ≠ .ok ∧ isRetryable (mockBadRequest 0) = false ∧
    rpcCall mockBadRequest 3 = (1, .permanentNetworkError) :=
  ⟨by decide, by decide,
   rpcCall_nonretryable_single_attempt mockBadRequest 3 (by decide) (by decide)⟩

/-- C6: when the transaction-level status is not a failure and some receipt
fails, the interpreter classifies the first failing receipt exactly as a
transaction-level method-call failure would be classified. -/
theorem classifyOutcome_receipt_scan (doc : ExecutionOutcomeDoc) (e : ActionFailure)
    (htx : isFailureStatus doc.txOutcomeStatus = false)
    (hrc : firstReceiptFailure doc.receiptStatuses = some e) :
    classifyOutcome doc = classifyFailure e := by
  obtain ⟨tx, rs⟩ := doc
  cases tx with
  | successValue v => simp [classifyOutcome, hrc]
  | successReceiptId i => simp [classifyOutcome, hrc]
  | failure f => simp [isFailureStatus] at htx

/-- Witness for C6 (Scenario D): the concrete document with a failing second
receipt classifies as ContractExecutionError "assertion failed", not as a
TransactionStructureError. -/
theorem classifyOutcome_receipt_scan_witness :
    classifyOutcome scenarioDDoc = .contractExecutionError "assertion failed" ∧
    classifyOutcome scenarioDDoc ≠ .transactionStructureError := by
  have h := classifyOutcome_receipt_scan scenarioDDoc
    (.functionCallFailure (.executionError "assertion failed")) (by decide)
    (by decide)
  rw [h]
  exact ⟨rfl, by decide⟩

/-- C7: the bare string `CreateAccount` decodes exactly like the single-key
object form in any action list; in particular Scenario E's list of the bare
string plus a transfer object decodes to the same parsed actions as the
fully-objectified form, successfully. -/
theorem bare_createAccount_decodes_like_object :
    (∀ rest, parseRpcActions (.bare "CreateAccount" :: rest) =
      parseRpcActions (.createAccountObj :: rest)) ∧
    parseRpcActions [.bare "CreateAccount", .transferObj "1"] =
      parseRpcActions [.createAccountObj, .transferObj "1"] ∧
    parseRpcActions [.bare "CreateAccount", .transferObj "1"] =
      some [.createAccount, .transfer "1"] := by
  refine ⟨fun rest => ?_, by decide, by decide⟩
  simp [parseRpcActions, parseRpcAction]

/-- C8: every stale-nonce error is retryable, carries both the transaction
nonce and the access-key nonce it was built from, bears the distinct
`INVALID_NONCE` code, and belongs to a class distinguishable from (and
unlike) the generic non-retried transaction-structure failure class. -/
theorem staleNonce_retryable_distinct (txN akN : Nat) :
    (InvalidNonceError.mk txN akN).retryable = true ∧
    (InvalidNonceError.mk txN akN).txNonce = txN ∧
    (InvalidNonceError.mk txN akN).akNonce = akN ∧
    (InvalidNonceError.mk txN akN).code = "INVALID_NONCE" ∧
    (InvalidNonceError.mk txN akN).errorClass ≠ ErrorClass.transactionStructureFailure ∧
    ErrorClass.transactionStructureFailure.isRetriedClass = false :=
  ⟨rfl, rfl, rfl, rfl, by simp [InvalidNonceError.errorClass], rfl⟩

end NearKit

